import Mathlib

/-!
Verification of the Earnings-Volatility-Calculator core
(`src/Experimental/Finviz-Parser/calculator.py`) against its
natural-language specification.

Shallow embedding conventions:
* Python floats are modelled as `Option ℚ`: `none` stands for a
  non-finite / undefined value (`NaN`, Python `None`), `some q` for a
  finite value.  Arithmetic on `Option ℚ` propagates `none`, matching
  IEEE NaN propagation in the source.
* Stateful code (proxy pool, on-disk cache) is modelled by explicit
  state passing; the pickle file store is a function
  `String → Option Payload` from cache keys to stored payloads, where
  `Payload.corrupt` stands for an unreadable/unparseable pickle.
* `random.choice` is modelled by an extra `ℕ` argument selecting an
  index into the candidate list (mod its length).
-/

namespace EVC

/-! ### Recommendation scoring (calculator.py lines 1036-1045) -/

inductive Recommendation : Type
  | Recommended
  | Consider
  | Avoid
deriving DecidableEq

/-- `ivcheck` of `EnhancedEarningsScanner.analyze_stock` (line 1038):
`(od['iv30_rv30'] >= 1.25) if (od['iv30_rv30'] is not None and not
np.isnan(od['iv30_rv30'])) else False`. `none` models `None`/`NaN`. -/
def ivCheck : Option ℚ → Bool
  | some q => decide (q ≥ 5 / 4)
  | none => false

/-- `slopecheck` of `EnhancedEarningsScanner.analyze_stock` (line 1039):
`(od['term_slope'] <= -0.00406) if (... is not None and not np.isnan ...)
else False`. -/
def slopeCheck : Option ℚ → Bool
  | some q => decide (q ≤ -(203 / 50000))
  | none => false

/-- The scoring rule of `EnhancedEarningsScanner.analyze_stock`
(lines 1040-1045): `if avb and ivcheck and slopecheck: "Recommended"
elif slopecheck and ((avb and not ivcheck) or (ivcheck and not avb)):
"Consider" else: "Avoid"`. -/
def score (avb : Bool) (ivRv slope : Option ℚ) : Recommendation :=
  if avb && ivCheck ivRv && slopeCheck slope then .Recommended
  else if slopeCheck slope && ((avb && !ivCheck ivRv) || (ivCheck ivRv && !avb)) then
    .Consider
  else .Avoid

/-! ### IV30/RV30 ratio assignment (calculator.py lines 633-638) -/

/-- The ratio assignment of `OptionsAnalyzer.compute_recommendation`
(lines 633-638): `if hv == 0: iv30_rv30 = 9999 elif np.isnan(hv):
iv30_rv30 = np.nan else: iv30_rv30 = iv30/hv`.  Both `iv30` and `hv`
may be `NaN` (`none`); `NaN == 0` is false in Python, so the `hv = some 0`
test is checked first exactly as in the source. -/
def iv30rv30 (iv30 hv : Option ℚ) : Option ℚ :=
  if hv = some 0 then some 9999
  else
    match hv with
    | none => none
    | some h => iv30.map (fun v => v / h)

/-! ### Term slope (calculator.py lines 621-626) -/

/-- The slope computation of `OptionsAnalyzer.compute_recommendation`
(lines 621-626): `d0 = min(ds); if d0 == 45: slope = 0 else:
dden = (45 - d0) if (45 - d0) != 0 else 1;
slope = (spline(45) - spline(d0))/dden`.  `spline` may return `NaN`
(`none`), which propagates through the subtraction and division. -/
def termSlope (spline : ℚ → Option ℚ) (d0 : ℤ) : Option ℚ :=
  if d0 = 45 then some 0
  else
    let dden : ℚ := if ((45 : ℤ) - d0) ≠ 0 then ((45 - d0 : ℤ) : ℚ) else 1
    match spline 45, spline (d0 : ℚ) with
    | some a, some b => some ((a - b) / dden)
    | _, _ => none

/-! ### Term structure (calculator.py lines 504-522) -/

/-- Sort key used by `np.argsort(da)`: order (day, iv) pairs by day. -/
def ptLE (a b : ℚ × ℚ) : Prop := a.1 ≤ b.1

instance : DecidableRel ptLE := fun a b => inferInstanceAs (Decidable (a.1 ≤ b.1))

instance : IsTotal (ℚ × ℚ) ptLE := ⟨fun a b => le_total a.1 b.1⟩

instance : IsTrans (ℚ × ℚ) ptLE := ⟨fun _ _ _ hab hbc => le_trans hab hbc⟩

/-- Piecewise-linear interpolation of `scipy.interpolate.interp1d`
between consecutive sorted knots, used for `da[0] ≤ dte ≤ da[-1]`.
`none` models the NaN that scipy produces when the bracketing knots
share the same day (0/0 slope). -/
def tsInterp : List (ℚ × ℚ) → ℚ → Option ℚ
  | [], _ => none
  | [p], _ => some p.2
  | p :: q :: rest, dte =>
    if dte ≤ q.1 then
      if p.1 = q.1 then none
      else some (p.2 + (q.2 - p.2) * (dte - p.1) / (q.1 - p.1))
    else tsInterp (q :: rest) dte

/-- The `tspline` closure of `OptionsAnalyzer.build_term_structure`
(lines 512-518): `if dte < da[0]: return va[0] elif dte > da[-1]:
return va[-1] else: return float(f(dte))`, over the day-sorted knots. -/
def tsClamp (pts : List (ℚ × ℚ)) (dte : ℚ) : Option ℚ :=
  match pts with
  | [] => none
  | p :: rest =>
    if dte < p.1 then some p.2
    else if ((p :: rest).getLast (List.cons_ne_nil p rest)).1 < dte then
      some (((p :: rest).getLast (List.cons_ne_nil p rest)).2)
    else tsInterp (p :: rest) dte

/-- `OptionsAnalyzer.build_term_structure` (lines 504-522): sorts the
(day, iv) pairs by day and returns the clamped interpolant.  When
`interp1d` construction fails — fewer than two knots, or mismatched
array lengths — the `except` branch returns `lambda x: np.nan`,
modelled by the constant-`none` function. -/
def build_term_structure (days ivs : List ℚ) : ℚ → Option ℚ :=
  if days.length < 2 ∨ days.length ≠ ivs.length then fun _ => none
  else fun dte => tsClamp (List.insertionSort ptLE (days.zip ivs)) dte

/-! ### Cache key (calculator.py lines 766-769) -/

/-- The pre-digest string of `DataCache._get_cache_key`:
`s = "_".join(sorted(tks)); data_str = f"{date}_{s}"`.  Python `sorted`
is a stable ascending sort, modelled by `List.insertionSort (· ≤ ·)`. -/
def cacheKeyStr (date : String) (tks : List String) : String :=
  date ++ "_" ++ String.intercalate "_" (List.insertionSort (· ≤ ·) tks)

/-- `DataCache._get_cache_key` returns `hashlib.md5(data_str).hexdigest()`;
the digest is an arbitrary deterministic function of `cacheKeyStr`,
abstracted here as the parameter `digest`. -/
def get_cache_key (digest : String → String) (date : String) (tks : List String) : String :=
  digest (cacheKeyStr date tks)

/-! ### Cached record values and the merge of missing fields
(calculator.py lines 829-845) -/

/-- A Python value stored in a per-ticker result dict.  `pnone` is
Python `None`, `pnan` a float NaN (which compares unequal to
everything, itself included), `pnum` collapses int/float (Python
`0 == 0.0` and `False == 0`). -/
inductive PyVal : Type
  | pnone
  | pnan
  | pbool (b : Bool)
  | pnum (q : ℚ)
  | pstr (s : String)
deriving DecidableEq

/-- Python `==` on stored values: booleans compare equal to their
numeric value, NaN compares unequal to everything. -/
def pyEq : PyVal → PyVal → Bool
  | .pnone, .pnone => true
  | .pbool a, .pbool b => a == b
  | .pbool a, .pnum q => decide ((if a then (1 : ℚ) else 0) = q)
  | .pnum q, .pbool b => decide (q = if b then (1 : ℚ) else 0)
  | .pnum a, .pnum b => decide (a = b)
  | .pstr a, .pstr b => a == b
  | _, _ => false

/-- The test `entry[k] in [None, 'N/A', 0]` of
`DataCache.update_missing_data` (line 838), using Python `==`. -/
def isMissingVal (v : PyVal) : Bool :=
  pyEq v .pnone || pyEq v (.pstr "N/A") || pyEq v (.pnum 0)

/-- A per-ticker result dict, as an association list with unique keys. -/
abbrev RecordDict : Type := List (String × PyVal)

/-- Python `entry[k]` / `k in entry`: the value bound to `k`, if any. -/
def lookupField : RecordDict → String → Option PyVal
  | [], _ => none
  | (a, b) :: es, k => if k = a then some b else lookupField es k

/-- Python `entry[k] = v` for a key already present in the dict. -/
def setField : RecordDict → String → PyVal → RecordDict
  | [], _, _ => []
  | (a, b) :: es, k, v =>
    if a = k then (k, v) :: setField es k v else (a, b) :: setField es k v

/-- One iteration of the inner loop of `DataCache.update_missing_data`
(lines 837-839): `if (k in entry) and (entry[k] in [None, 'N/A', 0]):
entry[k] = v`. -/
def mergeStep (e : RecordDict) (kv : String × PyVal) : RecordDict :=
  match lookupField e kv.1 with
  | some cur => if isMissingVal cur then setField e kv.1 kv.2 else e
  | none => e

/-- The inner loop of `DataCache.update_missing_data` (lines 837-839):
`for k, v in new_data.items(): ...` over the update's items. -/
def mergeRecord (entry : RecordDict) (newData : RecordDict) : RecordDict :=
  newData.foldl mergeStep entry

/-- The per-entry body of the outer loop of
`DataCache.update_missing_data` (lines 835-839): only an entry whose
`'ticker'` equals the update's `'ticker'` is merged. -/
def updateEntry (newData : RecordDict) (entry : RecordDict) : RecordDict :=
  match lookupField entry "ticker", lookupField newData "ticker" with
  | some a, some b => if pyEq a b then mergeRecord entry newData else entry
  | _, _ => entry

/-- The outer loop of `DataCache.update_missing_data` (lines 835-839)
over the cached entry's `'data'` list. -/
def update_missing_data (cdata : List RecordDict) (newData : RecordDict) :
    List RecordDict :=
  cdata.map (updateEntry newData)

/-! ### On-disk cache store (calculator.py lines 744-858) -/

/-- A cache entry as pickled by `DataCache.save_data` (lines 800-806).
Timestamps are rational day counts; `datetime.now() - timestamp` has
`.days = ⌊now - timestamp⌋`. -/
structure CacheEntry : Type where
  timestamp : ℚ
  date : String
  tickers : List String
  data : List RecordDict
  missing_data : List RecordDict

/-- What a cache file can hold: a readable entry, or an
unreadable/unparseable pickle. -/
inductive Payload : Type
  | corrupt
  | valid (e : CacheEntry)

/-- `self.cache_expiry_days = 7` (line 747). -/
def cache_expiry_days : ℤ := 7

/-- `(datetime.now() - timestamp).days`. -/
def ageDays (now ts : ℚ) : ℤ := ⌊now - ts⌋

/-- `DataCache.get_data` (lines 812-827) over an explicit file store:
miss when no file exists; an unreadable pickle is caught by the
`except` branch and returned as a miss *without* touching the file;
an entry of age ≥ 7 days is removed (`os.remove`) and returned as a
miss; otherwise the stored data and missing-field descriptors are
returned.  The first component is the file store after the call. -/
def get_data (fs : String → Option Payload) (now : ℚ) (date : String)
    (tks : List String) :
    (String → Option Payload) × (Option (List RecordDict) × List RecordDict) :=
  let ck := cacheKeyStr date tks
  match fs ck with
  | none => (fs, (none, []))
  | some .corrupt => (fs, (none, []))
  | some (.valid c) =>
    if ageDays now c.timestamp ≥ cache_expiry_days then
      (fun k => if k = ck then none else fs k, (none, []))
    else (fs, (some c.data, c.missing_data))

/-- `DataCache.clear_expired` (lines 847-858): every cache file is
read; files whose entry has age ≥ 7 days, and files that fail to
parse (`except: os.remove(cp)`), are removed. -/
def clear_expired (fs : String → Option Payload) (now : ℚ) :
    String → Option Payload :=
  fun k =>
    match fs k with
    | none => none
    | some .corrupt => none
    | some (.valid c) =>
      if ageDays now c.timestamp ≥ cache_expiry_days then none
      else some (.valid c)

/-! ### Proxy rotation (calculator.py lines 199-203, 365-372) -/

/-- A proxy record `{'http': ..., 'https': ...}` (e.g. line 242). -/
structure ProxyRecord : Type where
  http : String
  https : String
deriving DecidableEq

/-- `ProxyManager` state: `self.proxies`, `self.current_proxy`
(initially `None`), `self.proxy_enabled` (lines 199-203, 353). -/
structure ProxyManagerState : Type where
  proxies : List ProxyRecord
  current_proxy : Option ProxyRecord
  proxy_enabled : Bool

/-- `ProxyManager.rotate_proxy` (lines 365-372): no-op returning `None`
when disabled or `len(self.proxies) <= 1`; otherwise
`available = [p for p in self.proxies if p != self.current_proxy]`
and, if non-empty, `self.current_proxy = random.choice(available)` is
returned.  `random.choice` is modelled by the index `choice` taken
modulo the candidate count. -/
def rotate_proxy (st : ProxyManagerState) (choice : ℕ) :
    ProxyManagerState × Option ProxyRecord :=
  if st.proxy_enabled = false ∨ st.proxies.length ≤ 1 then (st, none)
  else
    if h : st.proxies.filter (fun p => some p ≠ st.current_proxy) = [] then
      (st, none)
    else
      ({ st with
          current_proxy := some
            ((st.proxies.filter (fun p => some p ≠ st.current_proxy)).get
              ⟨choice % (st.proxies.filter (fun p => some p ≠ st.current_proxy)).length,
                Nat.mod_lt _ (List.length_pos.mpr h)⟩) },
        some ((st.proxies.filter (fun p => some p ≠ st.current_proxy)).get
          ⟨choice % (st.proxies.filter (fun p => some p ≠ st.current_proxy)).length,
            Nat.mod_lt _ (List.length_pos.mpr h)⟩))

/-! ### Per-expiry chain fetch with rotation and retry
(calculator.py lines 553-575, 657-663) -/

/-- The per-expiry loop of `OptionsAnalyzer.compute_recommendation`
(lines 565-575): for each expiry, try `t.option_chain(e)`; on failure
rotate the session (generation `g + 1`) and retry that expiry once; a
second failure raises out of the loop.  `fetch e g` is the outcome of
fetching expiry `e` with session generation `g` (`none` = exception);
the error value carries the generation at which the loop aborted. -/
def fetchChains (fetch : String → ℕ → Option α) :
    List String → ℕ → Except ℕ (List (String × α) × ℕ)
  | [], g => .ok ([], g)
  | e :: rest, g =>
    match fetch e g with
    | some c => (fetchChains fetch rest g).map (fun p => ((e, c) :: p.1, p.2))
    | none =>
      match fetch e (g + 1) with
      | some c =>
        (fetchChains fetch rest (g + 1)).map (fun p => ((e, c) :: p.1, p.2))
      | none => .error (g + 1)

/-- The ticker-level retry loop of
`OptionsAnalyzer.compute_recommendation` (lines 553, 657-663):
`for attempt in range(3): try: ... except: if attempt < 2:
rotate_session() else: return {"error": ...}`.  The first argument of
`attemptLoop` is the loop body as a function of the session
generation; the `ℕ` argument is the number of attempts left (3 at the
top-level call). -/
def attemptLoop (body : ℕ → Except ℕ β) : ℕ → ℕ → Except ℕ β
  | 0, g => .error g
  | n + 1, g =>
    match body g with
    | .ok r => .ok r
    | .error g' => if n = 0 then .error g' else attemptLoop body n (g' + 1)

/-! ### Concrete inputs used by witnesses and counterexamples -/

/-- A stored cache entry with timestamp 0 (used with `now = 8`,
i.e. 8 days later). -/
def cacheEntryW : CacheEntry :=
  { timestamp := 0
    date := "2025-01-01"
    tickers := ["AAPL"]
    data := []
    missing_data := [] }

/-- A file store holding exactly one (expired) entry. -/
def fsExpired : String → Option Payload :=
  fun k =>
    if k = cacheKeyStr "2025-01-01" ["AAPL"] then some (.valid cacheEntryW)
    else none

/-- A file store holding exactly one corrupt (unparseable) entry. -/
def fsCorrupt : String → Option Payload :=
  fun k =>
    if k = cacheKeyStr "2025-01-02" ["MSFT"] then some .corrupt else none

/-- A chain fetcher for which the expiry `"bad"` fails at every
session generation and every other expiry succeeds. -/
def fetchBad : String → ℕ → Option ℕ :=
  fun e g => if e = "bad" then none else some g

/-- A chain fetcher that fails at session generation 0 and succeeds
after one rotation. -/
def fetchFlaky : String → ℕ → Option ℕ :=
  fun _ g => if g = 0 then none else some g

/-- Two distinct validated proxies. -/
def pA : ProxyRecord := ⟨"http://1.1.1.1:80", "http://1.1.1.1:80"⟩

/-- Two distinct validated proxies. -/
def pB : ProxyRecord := ⟨"http://2.2.2.2:80", "http://2.2.2.2:80"⟩

/-- An enabled two-proxy pool whose current proxy is `pA`. -/
def stW : ProxyManagerState :=
  { proxies := [pA, pB], current_proxy := some pA, proxy_enabled := true }

end EVC

namespace EVC

/-- C1: `score` returns `Recommended` iff `avgVolumeOK` holds and
`ivRvRatio ≥ 1.25` and `slope ≤ -0.00406`; returns `Consider` iff
`slope ≤ -0.00406` and exactly one of `avgVolumeOK`, `ivRvRatio ≥ 1.25`
holds; returns `Avoid` in every other case; a non-finite (`none`)
ratio or slope fails its threshold, never passes. -/
theorem score_spec (avb : Bool) (ivRv slope : Option ℚ) :
    (score avb ivRv slope = .Recommended ↔
      avb = true ∧ ivCheck ivRv = true ∧ slopeCheck slope = true)
    ∧ (score avb ivRv slope = .Consider ↔
      slopeCheck slope = true ∧
        ((avb = true ∧ ivCheck ivRv = false) ∨ (ivCheck ivRv = true ∧ avb = false)))
    ∧ (score avb ivRv slope = .Avoid ↔
      ¬(avb = true ∧ ivCheck ivRv = true ∧ slopeCheck slope = true) ∧
      ¬(slopeCheck slope = true ∧
        ((avb = true ∧ ivCheck ivRv = false) ∨ (ivCheck ivRv = true ∧ avb = false))))
    ∧ ivCheck none = false ∧ slopeCheck none = false := by
  refine ⟨?_, ?_, ?_, rfl, rfl⟩ <;>
    (cases h1 : ivCheck ivRv <;> cases h2 : slopeCheck slope <;> cases avb <;>
      simp [score, h1, h2])

/-- C9: `termSlope` returns exactly 0 when the shortest expiry is 45
days out; otherwise it returns `(spline 45 - spline d0) / (45 - d0)`
(whenever both spline values are defined), and the denominator used is
never zero. -/
theorem termSlope_spec (spline : ℚ → Option ℚ) (d0 : ℤ) :
    termSlope spline 45 = some 0
    ∧ (d0 ≠ 45 → ∀ a b, spline 45 = some a → spline (d0 : ℚ) = some b →
        termSlope spline d0 = some ((a - b) / ((45 - d0 : ℤ) : ℚ))
        ∧ ((45 - d0 : ℤ) : ℚ) ≠ 0) := by
  constructor
  · simp [termSlope]
  · intro hne a b ha hb
    have hz : ((45 : ℤ) - d0) ≠ 0 := by omega
    have hq : ((45 - d0 : ℤ) : ℚ) ≠ 0 := by
      exact_mod_cast hz
    refine ⟨?_, hq⟩
    simp only [termSlope, if_neg hne, if_pos hz, ha, hb]

/-- Witness for C9: at `spline = const (some 1)` and `d0 = 30` the
hypotheses hold and the slope evaluates as stated. -/
theorem termSlope_spec_witness :
    termSlope (fun _ => some 1) 30 = some ((1 - 1) / ((45 - 30 : ℤ) : ℚ))
    ∧ ((45 - 30 : ℤ) : ℚ) ≠ 0 :=
  (termSlope_spec (fun _ => some 1) 30).2 (by decide) 1 1 rfl rfl

/-- C10 counterexample: the claim says only a NaN realized volatility
yields an undefined ratio, but with `iv30 = NaN` (e.g. after a failed
term-structure build) and a finite non-zero `hv = 1` the ratio is also
undefined (`none`) although `hv` is neither 0 nor NaN. -/
theorem iv30rv30_cex :
    iv30rv30 none (some 1) = none ∧ (some (1 : ℚ) : Option ℚ) ≠ none := by
  constructor
  · rfl
  · simp

/-- C10 (amended): whenever the realized volatility is exactly 0 the
ratio is the sentinel 9999 (which always passes the `≥ 1.25` threshold),
a NaN realized volatility yields an undefined ratio, and the ratio is
also undefined when `iv30` is undefined while `hv` is finite non-zero. -/
theorem iv30rv30_spec (iv30 : Option ℚ) :
    iv30rv30 iv30 (some 0) = some 9999
    ∧ ivCheck (iv30rv30 iv30 (some 0)) = true
    ∧ iv30rv30 iv30 none = none
    ∧ (∀ h : ℚ, h ≠ 0 → iv30rv30 none (some h) = none) := by
  refine ⟨rfl, by norm_num [iv30rv30, ivCheck], rfl, ?_⟩
  intro h hne
  simp [iv30rv30, hne]

/-- `setField` at one key leaves lookups of any other key unchanged. -/
theorem lookup_setField_ne :
    ∀ (e : RecordDict) (k' k : String) (v' : PyVal), k' ≠ k →
      lookupField (setField e k' v') k = lookupField e k
  | [], _, _, _, _ => rfl
  | (a, b) :: es, k', k, v', h => by
    by_cases hb : a = k'
    · simp only [setField, if_pos hb, lookupField]
      rw [if_neg (Ne.symm h), if_neg (fun hk => Ne.symm h (hk.trans hb))]
      exact lookup_setField_ne es k' k v' h
    · simp only [setField, if_neg hb, lookupField]
      by_cases hk : k = a
      · rw [if_pos hk, if_pos hk]
      · rw [if_neg hk, if_neg hk]
        exact lookup_setField_ne es k' k v' h

/-- `setField` at a key replaces that key's looked-up value (when the
key is present). -/
theorem lookup_setField_eq :
    ∀ (e : RecordDict) (k : String) (v' : PyVal),
      lookupField (setField e k v') k = (lookupField e k).map (fun _ => v')
  | [], _, _ => rfl
  | (a, b) :: es, k, v' => by
    by_cases hb : a = k
    · simp [setField, lookupField, hb]
    · simp only [setField, if_neg hb, lookupField]
      rw [if_neg (fun hk => hb hk.symm), if_neg (fun hk => hb hk.symm)]
      exact lookup_setField_eq es k v'

/-- A merge iteration never changes a field whose current value is not
Python-equal to `None`, `'N/A'` or `0`. -/
theorem mergeStep_preserve (e : RecordDict) (kv : String × PyVal)
    (k : String) (v : PyVal) (hv : lookupField e k = some v)
    (hm : isMissingVal v = false) :
    lookupField (mergeStep e kv) k = some v := by
  unfold mergeStep
  rcases h1 : lookupField e kv.1 with _ | cur
  · exact hv
  · simp only []
    by_cases hmiss : isMissingVal cur = true
    · rw [if_pos hmiss]
      by_cases hk : kv.1 = k
      · rw [hk] at h1
        rw [h1] at hv
        cases hv
        rw [hm] at hmiss
        cases hmiss
      · rw [lookup_setField_ne e kv.1 k kv.2 hk]
        exact hv
    · rw [if_neg hmiss]
      exact hv

/-- A merge iteration for a different key never changes this key's
looked-up value. -/
theorem mergeStep_ne (e : RecordDict) (kv : String × PyVal) (k : String)
    (h : kv.1 ≠ k) : lookupField (mergeStep e kv) k = lookupField e k := by
  unfold mergeStep
  rcases h1 : lookupField e kv.1 with _ | cur
  · rfl
  · simp only []
    by_cases hmiss : isMissingVal cur = true
    · rw [if_pos hmiss, lookup_setField_ne e kv.1 k kv.2 h]
    · rw [if_neg hmiss]

/-- The merge loop never changes a field whose current value is not
Python-equal to `None`, `'N/A'` or `0`. -/
theorem mergeRecord_preserve :
    ∀ (newData entry : RecordDict) (k : String) (v : PyVal),
      lookupField entry k = some v → isMissingVal v = false →
      lookupField (mergeRecord entry newData) k = some v
  | [], _, _, _, hv, _ => hv
  | kv :: rest, entry, k, v, hv, hm =>
    mergeRecord_preserve rest (mergeStep entry kv) k v
      (mergeStep_preserve entry kv k v hv hm) hm

/-- Merging an update none of whose keys is `k` leaves `k`'s value
unchanged. -/
theorem mergeRecord_no_key :
    ∀ (rest e : RecordDict) (k : String),
      (∀ p ∈ rest, p.1 ≠ k) →
      lookupField (mergeRecord e rest) k = lookupField e k
  | [], _, _, _ => rfl
  | kv :: r, e, k, h => by
    have h1 : kv.1 ≠ k := h kv (List.mem_cons_self kv r)
    have h2 := mergeRecord_no_key r (mergeStep e kv) k
      (fun p hp => h p (List.mem_cons_of_mem kv hp))
    rw [show mergeRecord e (kv :: r) = mergeRecord (mergeStep e kv) r from rfl,
      h2, mergeStep_ne e kv k h1]

/-- A field currently `None`/`'N/A'`/`0` is overwritten with whatever
value the update supplies for that key — no non-emptiness check. -/
theorem mergeRecord_overwrite :
    ∀ (newData entry : RecordDict) (k : String) (v w : PyVal),
      (newData.map Prod.fst).Nodup → (k, w) ∈ newData →
      lookupField entry k = some v → isMissingVal v = true →
      lookupField (mergeRecord entry newData) k = some w
  | [], _, _, _, _, _, hmem, _, _ => absurd hmem (List.not_mem_nil _)
  | kv :: rest, entry, k, v, w, hnodup, hmem, hv, hm => by
    rw [List.map_cons, List.nodup_cons] at hnodup
    rcases List.mem_cons.mp hmem with heq | hmem'
    · have hkv1 : kv.1 = k := by rw [← heq]
      have hkv2 : kv.2 = w := by rw [← heq]
      have hstep : mergeStep entry kv = setField entry k w := by
        unfold mergeStep
        rw [hkv1, hkv2, hv]
        simp [hm]
      have hnk : ∀ p ∈ rest, p.1 ≠ k := by
        intro p hp hpk
        exact hnodup.1 (hkv1 ▸ hpk ▸ List.mem_map_of_mem Prod.fst hp)
      rw [show mergeRecord entry (kv :: rest) = mergeRecord (mergeStep entry kv) rest
          from rfl,
        hstep, mergeRecord_no_key rest _ k hnk, lookup_setField_eq, hv]
      rfl
    · have hk1 : kv.1 ≠ k := by
        intro hEq
        exact hnodup.1 (hEq ▸ List.mem_map_of_mem Prod.fst hmem')
      exact mergeRecord_overwrite rest (mergeStep entry kv) k v w hnodup.2 hmem'
        (by rw [mergeStep_ne entry kv k hk1]; exact hv) hm

/-- C4 counterexample: a field whose current value is `None` is
overwritten by the merge with the update's value `'N/A'` — an *empty*
value — so "overwritten only with the corresponding non-empty value"
fails on the code. -/
theorem merge_overwrite_empty_cex :
    lookupField
      (mergeRecord [("ticker", .pstr "AAPL"), ("expected_move", .pnone)]
        [("ticker", .pstr "AAPL"), ("expected_move", .pstr "N/A")])
      "expected_move"
      = some (.pstr "N/A")
    ∧ isMissingVal (.pstr "N/A") = true
    ∧ PyVal.pstr "N/A" ≠ PyVal.pnone := by
  refine ⟨?_, rfl, by simp⟩
  rfl

/-- C4 (amended): the merge-missing operation never changes a field of
the matching record whose current value is not Python-equal to `None`,
`'N/A'` or `0` (Python `==` makes `False` and `0.0` count as `0`); a
field whose current value *is* one of those is overwritten with
whatever value the update supplies for that key, even if that value is
itself empty. -/
theorem merge_missing_frame (newData entry : RecordDict) (k : String) :
    (∀ v, lookupField entry k = some v → isMissingVal v = false →
      lookupField (mergeRecord entry newData) k = some v)
    ∧ (∀ (cdata : List RecordDict) v, entry ∈ cdata →
      lookupField entry k = some v → isMissingVal v = false →
      updateEntry newData entry ∈ update_missing_data cdata newData
      ∧ lookupField (updateEntry newData entry) k = some v)
    ∧ (∀ v w, (newData.map Prod.fst).Nodup → (k, w) ∈ newData →
      lookupField entry k = some v → isMissingVal v = true →
      lookupField (mergeRecord entry newData) k = some w) := by
  refine ⟨fun v hv hm => mergeRecord_preserve newData entry k v hv hm, ?_,
    fun v w hn hmem hv hm => mergeRecord_overwrite newData entry k v w hn hmem hv hm⟩
  intro cdata v hcd hv hm
  refine ⟨List.mem_map_of_mem (updateEntry newData) hcd, ?_⟩
  unfold updateEntry
  split
  · split
    · exact mergeRecord_preserve newData entry k v hv hm
    · exact hv
  · exact hv

/-- Witness for C4: a populated numeric field survives a merge that
tries to update it. -/
theorem merge_missing_frame_witness :
    lookupField [("x", PyVal.pnum 5)] "x" = some (.pnum 5)
    ∧ isMissingVal (.pnum 5) = false
    ∧ lookupField
        (mergeRecord [("x", PyVal.pnum 5)] [("x", PyVal.pnum 7)]) "x"
      = some (.pnum 5) :=
  ⟨rfl, by decide,
    (merge_missing_frame [("x", .pnum 7)] [("x", .pnum 5)] "x").1
      (.pnum 5) rfl (by decide)⟩

/-- Witness for C10: at `iv30 = some 2`, `h = 1` the hypotheses hold. -/
theorem iv30rv30_spec_witness :
    iv30rv30 (some 2) (some 0) = some 9999 ∧ iv30rv30 none (some 1) = none :=
  ⟨(iv30rv30_spec (some 2)).1, (iv30rv30_spec (some 2)).2.2.2 1 (by decide)⟩

/-- In a day-sorted knot list, every knot's day is at most the last
knot's day. -/
theorem sorted_fst_le_getLast :
    ∀ (l : List (ℚ × ℚ)) (hne : l ≠ []), List.Sorted ptLE l →
      ∀ x ∈ l, x.1 ≤ (l.getLast hne).1
  | [], hne, _ => absurd rfl hne
  | [a], _, _ => by
    intro x hx
    rw [List.mem_singleton] at hx
    subst hx
    simp [List.getLast]
  | a :: b :: t, _, hs => by
    intro x hx
    have hgl : (a :: b :: t).getLast (List.cons_ne_nil a (b :: t)) =
        (b :: t).getLast (List.cons_ne_nil b t) := by
      simp [List.getLast]
    rcases List.mem_cons.mp hx with rfl | hx'
    · rw [hgl]
      exact List.rel_of_sorted_cons hs _ (List.getLast_mem (List.cons_ne_nil b t))
    · rw [hgl]
      exact sorted_fst_le_getLast (b :: t) (List.cons_ne_nil b t)
        (List.sorted_cons.mp hs).2 x hx'

/-- C2 counterexample: for a singleton input list the claim fails:
`interp1d` requires at least two knots, so `build_term_structure`
falls back to the constant-NaN function and evaluation below the
(single) minimum day returns `none`, not that day's implied
volatility. -/
theorem term_structure_singleton_cex :
    build_term_structure [10] [1/2] 5 = none
    ∧ (none : Option ℚ) ≠ some (1/2) := by
  constructor
  · rfl
  · simp

/-- C2 (amended): for every list of at least two (day, iv) pairs (with
matching lengths), evaluating the term structure strictly below the
minimum input day returns the implied volatility paired with the
minimum day, and strictly above the maximum input day returns the one
paired with the maximum day — flat clamping, no extrapolation. -/
theorem term_structure_clamp (days ivs : List ℚ) (d mn mx : ℚ)
    (hlen : days.length = ivs.length) (h2 : 2 ≤ days.length)
    (hmn_mem : mn ∈ days) (hmn : ∀ x ∈ days, mn ≤ x)
    (hmx_mem : mx ∈ days) (hmx : ∀ x ∈ days, x ≤ mx) :
    (d < mn → ∃ iv, (mn, iv) ∈ days.zip ivs ∧
        build_term_structure days ivs d = some iv)
    ∧ (mx < d → ∃ iv, (mx, iv) ∈ days.zip ivs ∧
        build_term_structure days ivs d = some iv) := by
  have hcond : ¬(days.length < 2 ∨ days.length ≠ ivs.length) := by
    push_neg
    exact ⟨by omega, hlen⟩
  have hbuild : build_term_structure days ivs d =
      tsClamp (List.insertionSort ptLE (days.zip ivs)) d := by
    simp only [build_term_structure, if_neg hcond]
  have hperm := List.perm_insertionSort ptLE (days.zip ivs)
  have hsorted := List.sorted_insertionSort ptLE (days.zip ivs)
  have hfst : (days.zip ivs).map Prod.fst = days :=
    List.map_fst_zip days ivs (le_of_eq hlen)
  have hlenS : (List.insertionSort ptLE (days.zip ivs)).length = days.length := by
    rw [hperm.length_eq, List.length_zip, ← hlen, min_self]
  cases hS : List.insertionSort ptLE (days.zip ivs) with
  | nil =>
    rw [hS] at hlenS
    simp at hlenS
    omega
  | cons p rest =>
    rw [hS] at hperm hsorted
    have hpmem : p ∈ days.zip ivs := hperm.subset (List.mem_cons_self p rest)
    have hp1 : p.1 ∈ days := by
      rw [← hfst]
      exact List.mem_map_of_mem Prod.fst hpmem
    have hmn_mem_map : mn ∈ (days.zip ivs).map Prod.fst := by
      rw [hfst]
      exact hmn_mem
    obtain ⟨pr, hpr_mem, hpr_fst⟩ := List.mem_map.mp hmn_mem_map
    have hpr_memS : pr ∈ p :: rest := hperm.symm.subset hpr_mem
    have hp_le : p.1 ≤ pr.1 := by
      rcases List.mem_cons.mp hpr_memS with h | h
      · rw [h]
      · exact List.rel_of_sorted_cons hsorted _ h
    have hpmn : p.1 = mn := le_antisymm (hpr_fst ▸ hp_le) (hmn _ hp1)
    have hLmem : (p :: rest).getLast (List.cons_ne_nil p rest) ∈ p :: rest :=
      List.getLast_mem (List.cons_ne_nil p rest)
    have hLzip : (p :: rest).getLast (List.cons_ne_nil p rest) ∈ days.zip ivs :=
      hperm.subset hLmem
    have hL1 : ((p :: rest).getLast (List.cons_ne_nil p rest)).1 ∈ days := by
      rw [← hfst]
      exact List.mem_map_of_mem Prod.fst hLzip
    have hmx_mem_map : mx ∈ (days.zip ivs).map Prod.fst := by
      rw [hfst]
      exact hmx_mem
    obtain ⟨qr, hqr_mem, hqr_fst⟩ := List.mem_map.mp hmx_mem_map
    have hqr_memS : qr ∈ p :: rest := hperm.symm.subset hqr_mem
    have hq_le : qr.1 ≤ ((p :: rest).getLast (List.cons_ne_nil p rest)).1 :=
      sorted_fst_le_getLast (p :: rest) (List.cons_ne_nil p rest) hsorted qr hqr_memS
    have hLmx : ((p :: rest).getLast (List.cons_ne_nil p rest)).1 = mx :=
      le_antisymm (hmx _ hL1) (hqr_fst ▸ hq_le)
    constructor
    · intro hd
      refine ⟨p.2, ?_, ?_⟩
      · have hpe : ((mn, p.2) : ℚ × ℚ) = p := by
          rw [← hpmn]
        rw [hpe]
        exact hpmem
      · rw [hbuild, hS]
        have hd' : d < p.1 := hpmn ▸ hd
        simp [tsClamp, hd']
    · intro hd
      refine ⟨((p :: rest).getLast (List.cons_ne_nil p rest)).2, ?_, ?_⟩
      · have hqe : ((mx, ((p :: rest).getLast (List.cons_ne_nil p rest)).2) : ℚ × ℚ) =
            (p :: rest).getLast (List.cons_ne_nil p rest) := by
          rw [← hLmx]
        rw [hqe]
        exact hLzip
      · rw [hbuild, hS]
        have hnd : ¬(d < p.1) := by
          have h1 : p.1 ≤ mx := hpmn ▸ (hpmn ▸ hmx _ hp1)
          push_neg
          calc p.1 ≤ mx := by rw [hpmn]; exact hmx _ (hpmn ▸ hp1)
          _ ≤ d := le_of_lt hd
        have hd' : ((p :: rest).getLast (List.cons_ne_nil p rest)).1 < d := hLmx ▸ hd
        simp [tsClamp, hnd, hd']

/-- Witness for C2: two knots `(7, 1/2)` and `(30, 1/4)`; evaluating at
`3 < 7` yields the minimum-day implied volatility `1/2`. -/
theorem term_structure_clamp_witness :
    (3 : ℚ) < 7 ∧ ∃ iv, ((7 : ℚ), iv) ∈ [(7 : ℚ), 30].zip [(1/2 : ℚ), 1/4] ∧
      build_term_structure [7, 30] [1/2, 1/4] 3 = some iv :=
  ⟨by norm_num,
    (term_structure_clamp [7, 30] [1/2, 1/4] 3 7 30 rfl (by norm_num)
      (by norm_num) (by norm_num) (by norm_num) (by norm_num)).1 (by norm_num)⟩

/-- C3: the cache key is invariant under permutation of the ticker list:
for any deterministic digest, any scan date and any two ticker lists
that are permutations of each other, the computed keys coincide. -/
theorem cache_key_perm_invariant (digest : String → String) (date : String)
    (tks tks' : List String) (hperm : tks.Perm tks') :
    get_cache_key digest date tks = get_cache_key digest date tks' := by
  unfold get_cache_key cacheKeyStr
  have hsort :
      List.insertionSort (· ≤ ·) tks = List.insertionSort (· ≤ ·) tks' := by
    exact @List.eq_of_perm_of_sorted String (· ≤ ·) _ _ _
      (((List.perm_insertionSort _ tks).trans hperm).trans
        (List.perm_insertionSort _ tks').symm)
      (List.sorted_insertionSort _ tks)
      (List.sorted_insertionSort _ tks')
  rw [hsort]

/-- C5: a stored entry whose timestamp is at least 7 days in the past
is reported as absent (with empty missing-field list) by `get_data`,
and its file is removed from the store during that same call. -/
theorem get_data_expired (fs : String → Option Payload) (now : ℚ)
    (date : String) (tks : List String) (c : CacheEntry)
    (hfs : fs (cacheKeyStr date tks) = some (.valid c))
    (hage : now - c.timestamp ≥ 7) :
    (get_data fs now date tks).2.1 = none
    ∧ (get_data fs now date tks).2.2 = []
    ∧ (get_data fs now date tks).1 (cacheKeyStr date tks) = none := by
  have hdays : ageDays now c.timestamp ≥ cache_expiry_days := by
    unfold ageDays cache_expiry_days
    exact Int.le_floor.mpr (by exact_mod_cast hage)
  unfold get_data
  simp only [hfs]
  rw [if_pos hdays]
  exact ⟨rfl, rfl, by simp⟩

/-- Witness for C5: a store holding one entry with timestamp 0, read at
`now = 8` (8 days later): absent result, empty descriptors, file
removed. -/
theorem get_data_expired_witness :
    fsExpired (cacheKeyStr "2025-01-01" ["AAPL"]) = some (.valid cacheEntryW)
    ∧ (8 : ℚ) - cacheEntryW.timestamp ≥ 7
    ∧ (get_data fsExpired 8 "2025-01-01" ["AAPL"]).2.1 = none
    ∧ (get_data fsExpired 8 "2025-01-01" ["AAPL"]).2.2 = []
    ∧ (get_data fsExpired 8 "2025-01-01" ["AAPL"]).1
        (cacheKeyStr "2025-01-01" ["AAPL"]) = none :=
  ⟨by simp [fsExpired], by norm_num [cacheEntryW],
    get_data_expired fsExpired 8 "2025-01-01" ["AAPL"] cacheEntryW
      (by simp [fsExpired]) (by norm_num [cacheEntryW])⟩

/-- C6 counterexample: a corrupt entry is reported as absent by
`get_data`, but — contrary to the claim — its storage is *not* removed
during the get: the file still holds the corrupt payload afterwards. -/
theorem get_data_corrupt_cex :
    (get_data fsCorrupt 0 "2025-01-02" ["MSFT"]).2.1 = none
    ∧ (get_data fsCorrupt 0 "2025-01-02" ["MSFT"]).1
        (cacheKeyStr "2025-01-02" ["MSFT"]) = some .corrupt := by
  constructor
  · rfl
  · rfl

/-- C6 (amended): a get on a corrupt entry returns a miss and leaves
the file store unchanged (the corrupt file is retained); corrupt
entries are deleted by the separate sweep `clear_expired`, not by
`get_data`. -/
theorem get_data_corrupt_behavior (fs : String → Option Payload) (now : ℚ)
    (date : String) (tks : List String)
    (hfs : fs (cacheKeyStr date tks) = some .corrupt) :
    get_data fs now date tks = (fs, (none, []))
    ∧ clear_expired fs now (cacheKeyStr date tks) = none := by
  constructor
  · unfold get_data
    simp only [hfs]
  · unfold clear_expired
    simp only [hfs]

/-- Witness for C6: the concrete corrupt store. -/
theorem get_data_corrupt_behavior_witness :
    fsCorrupt (cacheKeyStr "2025-01-02" ["MSFT"]) = some .corrupt
    ∧ get_data fsCorrupt 0 "2025-01-02" ["MSFT"] = (fsCorrupt, (none, []))
    ∧ clear_expired fsCorrupt 0 (cacheKeyStr "2025-01-02" ["MSFT"]) = none :=
  ⟨by simp [fsCorrupt],
    (get_data_corrupt_behavior fsCorrupt 0 "2025-01-02" ["MSFT"]
      (by simp [fsCorrupt])).1,
    (get_data_corrupt_behavior fsCorrupt 0 "2025-01-02" ["MSFT"]
      (by simp [fsCorrupt])).2⟩

/-- Witness for C3: the concrete lists `["MSFT", "AAPL"]` and
`["AAPL", "MSFT"]` are permutations of each other and yield the same
cache key. -/
theorem cache_key_perm_invariant_witness :
    get_cache_key (fun s => s) "2025-01-01" ["MSFT", "AAPL"]
      = get_cache_key (fun s => s) "2025-01-01" ["AAPL", "MSFT"] :=
  cache_key_perm_invariant (fun s => s) "2025-01-01" ["MSFT", "AAPL"]
    ["AAPL", "MSFT"] (List.Perm.swap "AAPL" "MSFT" [])

/-- A duplicate-free list of length at least 2 contains an element
different from any given one. -/
theorem exists_ne_of_nodup_two {α : Type} {l : List α} (hnodup : l.Nodup)
    (hlen : 2 ≤ l.length) (c : α) : ∃ x ∈ l, x ≠ c := by
  match l, hlen with
  | a :: b :: t, _ =>
    have hab : a ≠ b := by
      intro h
      exact (List.nodup_cons.mp hnodup).1 (h ▸ List.mem_cons_self b t)
    by_cases hac : a = c
    · exact ⟨b, List.mem_cons_of_mem a (List.mem_cons_self b t),
        fun h => hab (by rw [hac, h])⟩
    · exact ⟨a, List.mem_cons_self a (b :: t), hac⟩

/-- If `c` and `c'` both lie in the two-element list `[a, b]` with
`a ≠ b` and `c' ≠ c`, then `c'` is the element other than `c`. -/
theorem mem_pair_resolve {α : Type} [DecidableEq α] {c c' a b : α} (_hab : a ≠ b)
    (hc'mem : c' = a ∨ c' = b) (hcmem : c = a ∨ c = b) (hne : c' ≠ c) :
    c' = if c = a then b else a := by
  by_cases hca : c = a
  · rw [if_pos hca]
    rcases hc'mem with h | h
    · exact absurd (h.trans hca.symm) hne
    · exact h
  · rw [if_neg hca]
    rcases hc'mem with h | h
    · exact h
    · have hcb : c = b := hcmem.resolve_left hca
      exact absurd (h.trans hcb.symm) hne

/-- C7: `rotate_proxy` is a no-op (returning `None`) when the pool is
disabled or holds fewer than 2 proxies; with an enabled pool of at
least 2 (distinct) proxies and a current proxy in the pool, it selects
a new current proxy that is a member of the pool and differs from the
previous one — and with exactly 2 proxies it is always the other
proxy. -/
theorem rotate_proxy_spec (st : ProxyManagerState) (i : ℕ) :
    ((st.proxy_enabled = false ∨ st.proxies.length ≤ 1) →
      rotate_proxy st i = (st, none))
    ∧ (∀ c, st.proxy_enabled = true → st.proxies.Nodup →
      2 ≤ st.proxies.length → st.current_proxy = some c → c ∈ st.proxies →
      ∃ c', rotate_proxy st i = ({ st with current_proxy := some c' }, some c')
        ∧ c' ∈ st.proxies ∧ c' ≠ c
        ∧ (∀ a b, st.proxies = [a, b] → c' = if c = a then b else a)) := by
  constructor
  · intro h
    unfold rotate_proxy
    rw [if_pos h]
  · intro c hen hnodup hlen hcur hmem
    have hcond : ¬(st.proxy_enabled = false ∨ st.proxies.length ≤ 1) := by
      push_neg
      exact ⟨by simp [hen], by omega⟩
    obtain ⟨x, hxmem, hxne⟩ := exists_ne_of_nodup_two hnodup hlen c
    have hxav : x ∈ st.proxies.filter (fun p => some p ≠ st.current_proxy) := by
      apply List.mem_filter.mpr
      exact ⟨hxmem, by simp [hcur, hxne]⟩
    have hav : st.proxies.filter (fun p => some p ≠ st.current_proxy) ≠ [] := by
      intro h
      rw [h] at hxav
      exact List.not_mem_nil x hxav
    have hex : ∃ c',
        rotate_proxy st i = ({ st with current_proxy := some c' }, some c')
        ∧ c' ∈ st.proxies.filter (fun p => some p ≠ st.current_proxy) := by
      refine ⟨(st.proxies.filter (fun p => some p ≠ st.current_proxy)).get
          ⟨i % (st.proxies.filter (fun p => some p ≠ st.current_proxy)).length,
            Nat.mod_lt _ (List.length_pos.mpr hav)⟩,
        ?_, List.get_mem _ _ _⟩
      unfold rotate_proxy
      rw [if_neg hcond, dif_neg hav]
    obtain ⟨c', hrot, hc'filter⟩ := hex
    obtain ⟨hc'mem, hc'dec⟩ := List.mem_filter.mp hc'filter
    have hc'ne : c' ≠ c := by
      intro heq
      exact (of_decide_eq_true hc'dec) (by rw [heq, hcur])
    refine ⟨c', hrot, hc'mem, hc'ne, ?_⟩
    intro a b hpr
    rw [hpr] at hc'mem hmem hnodup
    have hab : a ≠ b := by
      intro h
      exact (List.nodup_cons.mp hnodup).1 (h ▸ List.mem_cons_self b [])
    exact mem_pair_resolve hab (List.mem_pair.mp hc'mem)
      (List.mem_pair.mp hmem) hc'ne

/-- Witness for C7: an enabled two-proxy pool currently at `pA` always
rotates to some other member of the pool. -/
theorem rotate_proxy_spec_witness :
    stW.proxy_enabled = true ∧ stW.proxies.Nodup ∧ 2 ≤ stW.proxies.length
    ∧ stW.current_proxy = some pA ∧ pA ∈ stW.proxies
    ∧ ∃ c', rotate_proxy stW 0 = ({ stW with current_proxy := some c' }, some c')
      ∧ c' ∈ stW.proxies ∧ c' ≠ pA
      ∧ (∀ a b, stW.proxies = [a, b] → c' = if pA = a then b else a) :=
  ⟨rfl, by decide, by decide, rfl, by decide,
    (rotate_proxy_spec stW 0).2 pA rfl (by decide) (by decide) rfl (by decide)⟩

/-- C8 counterexample: with an expiry whose chain fetch fails both
before and after the session rotation, the whole per-ticker attempt
aborts with an error — the failing expiry is *not* skipped: the
following expiry, which would succeed on its own, is never reached. -/
theorem fetch_chain_double_failure_cex :
    fetchChains fetchBad ["bad", "good"] 0 = .error 1
    ∧ fetchChains fetchBad ["good"] 0 = .ok ([("good", 0)], 0) := by
  constructor
  · rfl
  · rfl

/-- C8 (amended): a failed per-expiry fetch rotates the session and
retries that expiry exactly once; if the retry succeeds the loop
continues with the rotated session, but if the retry also fails the
exception aborts the entire ticker-level attempt; the ticker-level
computation is retried up to 3 times in total (rotating the session
between attempts) and returns an error marker after the third
failure. -/
theorem fetch_chain_retry_spec {α : Type} (fetch : String → ℕ → Option α)
    (e : String) (rest : List String) (g : ℕ) :
    (∀ c, fetch e g = none → fetch e (g + 1) = some c →
      fetchChains fetch (e :: rest) g =
        (fetchChains fetch rest (g + 1)).map (fun p => ((e, c) :: p.1, p.2)))
    ∧ (fetch e g = none → fetch e (g + 1) = none →
      fetchChains fetch (e :: rest) g = .error (g + 1))
    ∧ (∀ (body : ℕ → Except ℕ (List (String × α) × ℕ)) r g₁,
      body g = .error g₁ → body (g₁ + 1) = .ok r →
      attemptLoop body 3 g = .ok r)
    ∧ (∀ (body : ℕ → Except ℕ (List (String × α) × ℕ)) g₁ g₂ g₃,
      body g = .error g₁ → body (g₁ + 1) = .error g₂ → body (g₂ + 1) = .error g₃ →
      attemptLoop body 3 g = .error g₃) := by
  refine ⟨?_, ?_, ?_, ?_⟩
  · intro c h1 h2
    simp [fetchChains, h1, h2]
  · intro h1 h2
    simp [fetchChains, h1, h2]
  · intro body r g₁ h1 h2
    simp [attemptLoop, h1, h2]
  · intro body g₁ g₂ g₃ h1 h2 h3
    simp [attemptLoop, h1, h2, h3]

/-- Witness for C8: a fetch that fails at generation 0 and succeeds at
generation 1 is retried once after rotation and the loop continues. -/
theorem fetch_chain_retry_spec_witness :
    fetchFlaky "exp1" 0 = none ∧ fetchFlaky "exp1" 1 = some 1
    ∧ fetchChains fetchFlaky ["exp1"] 0 =
      (fetchChains fetchFlaky [] 1).map (fun p => (("exp1", 1) :: p.1, p.2)) :=
  ⟨rfl, rfl,
    (fetch_chain_retry_spec fetchFlaky "exp1" [] 0).1 1 rfl rfl⟩

end EVC
